import Mathlib

/-!
Verification development for the read-later agent's scheduling and storage
core (src/modules/scheduler.py and src/modules/storage.py).

Timestamps are modelled as epoch seconds (a natural number).  A stored ISO
timestamp string is modelled through the lens of timestamp parsing as an
`Option Nat`: `some t` stands for a string that `datetime.fromisoformat`
parses to the instant `t`, and `none` stands for an unparseable string (the
code guards every parse with try/except).  Python float arithmetic in the
priority scorer only ever adds small integers to integers, so scores are
modelled as `Int`.
-/

namespace ReadLater

/-- The hour-of-day field of an epoch-second instant, as in `datetime.hour`. -/
def hourOf (t : Nat) : Nat := t / 3600 % 24

/-- The weekday of an epoch-second instant, 0 = Monday .. 6 = Sunday, as in
`datetime.weekday()`.  The Unix epoch day was a Thursday, weekday 3. -/
def weekdayOf (t : Nat) : Nat := (t / 86400 + 3) % 7

/-- Midnight of the calendar day containing `t`. -/
def dayStart (t : Nat) : Nat := t / 86400 * 86400

/-- The Python call `dt.replace(hour=h, minute=0, second=0, microsecond=0)`. -/
def replaceHour (t h : Nat) : Nat := dayStart t + h * 3600

/-- A row of the `articles` table (storage.py, `_init_database`).  The
`savedAt` field models the `saved_at` ISO string through the parsing lens
described in the file header. -/
structure Article where
  id : Nat
  url : String
  title : String
  content : String
  author : Option String
  publishedDate : Option String
  description : Option String
  readingTime : Int
  domain : String
  fetchedAt : String
  savedAt : Option Nat
  status : String
  category : Option String
deriving Repr, DecidableEq

/-- A row of the `reading_stats` event log, as returned by
`get_recent_activity` (the joined title/url display fields are irrelevant to
the analysis and omitted).  The `timestamp` field is modelled through the
parsing lens. -/
structure Event where
  articleId : Nat
  eventType : String
  timestamp : Option Nat
deriving Repr, DecidableEq

/-- The input dictionary of `Storage.save_article`. -/
structure ArticleData where
  url : String
  title : String
  content : String
  author : Option String
  publishedDate : Option String
  description : Option String
  readingTime : Int
  domain : String
  fetchedAt : String
deriving Repr, DecidableEq

/-- The SQLite database contents relevant to the claims.  `nextId` models the
AUTOINCREMENT counter, i.e. the rowid the next INSERT will receive. -/
structure StoreState where
  articles : List Article
  events : List Event
  nextId : Nat
deriving Repr, DecidableEq

/-- The dictionary returned by `Scheduler.analyze_reading_patterns`. -/
structure ReadingPatterns where
  preferredHours : List Nat
  preferredDays : List Nat
  readingTimes : List String
  totalReads : Nat
  hasData : Bool
deriving Repr, DecidableEq

/-- The dictionary returned by `Storage.get_statistics`.  The two derived
fields of the Python dictionary, `average_reading_time` and
`read_percentage`, are rounded quotients of the fields below and carry no
further information, so they are omitted; equality of two `Statistics`
values coincides with equality of the full Python dictionaries. -/
structure Statistics where
  totalArticles : Nat
  unread : Nat
  readCount : Nat
  totalReadingTime : Int
  readReadingTime : Int
  topCategory : Option String
deriving Repr, DecidableEq

/-- One entry of `Scheduler.get_delivery_schedule`.  `dayOfWeek` holds the
weekday index that the Python formats with `strftime` as a day name. -/
structure ScheduleEntry where
  deliveryTime : Nat
  hour : Nat
  dayOfWeek : Nat
  recommendedItems : Nat
deriving Repr, DecidableEq

/-- Python truthiness of an optional string: `None` and the empty string are
falsy, any other string is truthy. -/
def truthyOptStr : Option String → Bool
  | none => false
  | some s => s != ""

/-- Distinct values of a list in first-appearance order.  This models both
the key order of a Python `Counter`/`defaultdict` (insertion order) and the
deterministic choice we make for the unspecified group order of a SQL
GROUP BY. -/
def pyCounterKeys {α : Type} [DecidableEq α] (xs : List α) : List α :=
  xs.foldl (fun ks x => if x ∈ ks then ks else ks ++ [x]) []

/-- The keys of `Counter(xs).most_common(k)`: distinct values ranked by
multiplicity, descending; Python guarantees that equal counts keep
first-encounter order, which the stable insertion sort reproduces. -/
def pyMostCommon {α : Type} [DecidableEq α] (k : Nat) (xs : List α) : List α :=
  (List.insertionSort (fun a b => xs.count b ≤ xs.count a) (pyCounterKeys xs)).take k

/-- The query `SELECT category, COUNT(*) ... GROUP BY category ORDER BY count
DESC LIMIT 1` of `get_statistics`, followed by Python's
`row['category'] if row else None`: a winning NULL category and an empty
table both collapse to `none`.  SQL leaves the relative order of
equally-frequent groups unspecified; first-appearance order is the
deterministic model. -/
def topCategoryOf (arts : List Article) : Option String :=
  match pyMostCommon 1 (arts.map (·.category)) with
  | [] => none
  | c :: _ => c

/-- The method `Storage.get_statistics` (storage.py). -/
def get_statistics (s : StoreState) : Statistics :=
  { totalArticles := s.articles.length
    unread := (s.articles.filter (fun a => a.status == "unread")).length
    readCount := (s.articles.filter (fun a => a.status == "read")).length
    totalReadingTime := (s.articles.map (·.readingTime)).sum
    readReadingTime := ((s.articles.filter (fun a => a.status == "read")).map (·.readingTime)).sum
    topCategory := topCategoryOf s.articles }

/-- The method `Storage.save_article` (storage.py): if a row with the same
URL exists, return its id and change nothing; otherwise insert the article
(status `unread`, category defaulted by the schema to `Uncategorized`,
`saved_at` set to the current time) together with its `saved` event, in one
transaction. -/
def save_article (s : StoreState) (d : ArticleData) (now : Nat) :
    Option Nat × StoreState :=
  match s.articles.find? (fun a => a.url == d.url) with
  | some existing => (some existing.id, s)
  | none =>
    let art : Article :=
      { id := s.nextId, url := d.url, title := d.title, content := d.content
        author := d.author, publishedDate := d.publishedDate
        description := d.description, readingTime := d.readingTime
        domain := d.domain, fetchedAt := d.fetchedAt, savedAt := some now
        status := "unread", category := some "Uncategorized" }
    (some s.nextId,
      { articles := s.articles ++ [art]
        events := s.events ++ [{ articleId := s.nextId, eventType := "saved"
                                 timestamp := some now }]
        nextId := s.nextId + 1 })

/-- The class constant `Scheduler.DEFAULT_DELIVERY_HOURS`. -/
def DEFAULT_DELIVERY_HOURS : List Nat := [9, 12, 18, 21]

/-- The class constant `Scheduler.DEFAULT_MAX_ITEMS_PER_DELIVERY`. -/
def DEFAULT_MAX_ITEMS_PER_DELIVERY : Nat := 5

/-- The method `Scheduler._get_default_patterns`. -/
def get_default_patterns : ReadingPatterns :=
  { preferredHours := DEFAULT_DELIVERY_HOURS
    preferredDays := [0, 1, 2, 3, 4, 5, 6]
    readingTimes := ["morning", "evening"]
    totalReads := 0
    hasData := false }

/-- The `time_categories` table of `Scheduler._categorize_reading_times`:
name, range start, range end, in the dictionary's insertion order. -/
def timeCategories : List (String × Nat × Nat) :=
  [("morning", 6, 11), ("afternoon", 12, 17), ("evening", 18, 22), ("night", 23, 5)]

/-- The membership test of `_categorize_reading_times`: the night bucket
wraps across midnight, every other bucket is a plain closed interval. -/
def catMatch (c : String × Nat × Nat) (hour : Nat) : Bool :=
  if c.1 == "night" then decide (23 ≤ hour ∨ hour ≤ 5)
  else decide (c.2.1 ≤ hour ∧ hour ≤ c.2.2)

/-- One `category_counts[category] += 1` step of a `defaultdict(int)`,
modelled as an association list kept in key-insertion order. -/
def bumpCount (m : List (String × Nat)) (k : String) : List (String × Nat) :=
  if m.any (fun p => p.1 == k) then
    m.map (fun p => if p.1 == k then (p.1, p.2 + 1) else p)
  else m ++ [(k, 1)]

/-- The `category_counts` accumulation loop of `_categorize_reading_times`. -/
def category_counts (hours : List Nat) : List (String × Nat) :=
  hours.foldl (fun m hour =>
    timeCategories.foldl (fun m2 c => if catMatch c hour then bumpCount m2 c.1 else m2) m) []

/-- The method `Scheduler._categorize_reading_times`: rank the buckets by
count, descending (Python's `sorted(..., reverse=True)` is stable, modelled
by a stable insertion sort), then keep the names of buckets with a positive
count. -/
def categorize_reading_times (hours : List Nat) : List String :=
  ((List.insertionSort (fun a b : String × Nat => b.2 ≤ a.2)
      (category_counts hours)).filter (fun p => 0 < p.2)).map (·.1)

/-- The method `Scheduler.analyze_reading_patterns`, as a function of the
activity rows the code fetches with `storage.get_recent_activity(limit=100)`.
Events whose timestamp fails to parse contribute to neither the hour nor the
weekday list but still count toward `total_reads`. -/
def analyze_reading_patterns (activity : List Event) : ReadingPatterns :=
  if activity = [] then get_default_patterns
  else
    let read_events := activity.filter (fun a => a.eventType == "read")
    if read_events = [] then get_default_patterns
    else
      let parsed := read_events.filterMap (·.timestamp)
      let hours := parsed.map hourOf
      let days_of_week := parsed.map weekdayOf
      let top_hours := pyMostCommon 5 hours
      let top_days := pyMostCommon 3 days_of_week
      { preferredHours := if top_hours = [] then DEFAULT_DELIVERY_HOURS else top_hours
        preferredDays := top_days
        readingTimes := categorize_reading_times hours
        totalReads := read_events.length
        hasData := true }

/-- The method `Scheduler.get_next_delivery_time`: the smallest preferred
hour strictly after the current hour today (the code scans
`sorted(preferred_hours)` and breaks at the first match); failing that, the
FIRST listed preferred hour, `preferred_hours[0]`, on the next day.  The
preferred-hour list is never empty, so the `headD` default is never read. -/
def get_next_delivery_time (activity : List Event) (now : Nat) : Nat :=
  let preferred_hours := (analyze_reading_patterns activity).preferredHours
  let next_hour := (List.insertionSort (· ≤ ·) preferred_hours).find?
      (fun h => decide (hourOf now < h))
  match next_hour with
  | some h => replaceHour now h
  | none => replaceHour (now + 86400) (preferred_hours.headD 0)

/-- The method `Scheduler._calculate_priority_score`, as a function of the
article, the statistics its Factor 3 fetches, and the current time.  Inside
one `prioritize_queue` run the store does not change, so every per-article
`get_statistics()` call returns the same value, passed here once. -/
def calculate_priority_score (a : Article) (stats : Statistics) (now : Nat) : Int :=
  let score : Int := 0
  -- Factor 1: recency; an unparseable saved_at is swallowed by the bare except
  let score := score + (match a.savedAt with
    | some t => max 0 (10 - Int.fdiv ((now : Int) - (t : Int)) 86400)
    | none => 0)
  -- Factor 2: reading-time shaping, an elif chain
  let score := if a.readingTime ≤ 3 then score + 5
    else if a.readingTime ≤ 5 then score + 3
    else if 15 ≤ a.readingTime then score - 2
    else score
  -- Factor 3: category affinity; the guard uses Python truthiness
  let score := if truthyOptStr stats.topCategory && (a.category == stats.topCategory)
    then score + 5 else score
  -- Factor 4: author presence, again Python truthiness
  let score := if truthyOptStr a.author then score + 2 else score
  -- Factor 5: description longer than 100 characters
  let score := if 100 < (a.description.getD "").length then score + 2 else score
  score

/-- The store operations the scheduler can issue, used to record the reads a
method performs. -/
inductive StoreOp where
  | getStatistics
  | getReadingQueue (lim : Nat)
  | getRecentActivity (lim : Nat)
deriving Repr, DecidableEq

/-- The call `self.storage.get_statistics()` as a store transition: the SQL
it runs is SELECT-only, so the state comes back unchanged and one read is
recorded. -/
def get_statistics_op (s : StoreState) : Statistics × StoreState × List StoreOp :=
  (get_statistics s, s, [StoreOp.getStatistics])

/-- The method `Scheduler._calculate_priority_score` run against the store
`s` at time `now`, returning the score, the store state it leaves behind and
the trace of store operations it performed (Factor 3 makes the single
`self.storage.get_statistics()` call). -/
def calculate_priority_score_run (a : Article) (s : StoreState) (now : Nat) :
    Int × StoreState × List StoreOp :=
  let stats_s1_ops := get_statistics_op s
  (calculate_priority_score a stats_s1_ops.1 now, stats_s1_ops.2.1, stats_s1_ops.2.2)

/-- The method `Scheduler.prioritize_queue`, as a function of the unread rows
fetched by `storage.get_reading_queue(limit=50)`, the statistics the
per-article scoring fetches, and the current time.  Python's stable
`sort(key=score, reverse=True)` is modelled by a stable insertion sort on
the score, descending. -/
def prioritize_queue (queue : List Article) (stats : Statistics) (now : Nat)
    (lim : Nat) : List Article :=
  if queue = [] then []
  else
    let scored := queue.map (fun a => (calculate_priority_score a stats now, a))
    let sorted := List.insertionSort (fun x y : Int × Article => y.1 ≤ x.1) scored
    (sorted.take lim).map (·.2)

/-- The method `Scheduler.suggest_reading_session`: walk the top-20
prioritized queue in order, keeping an article exactly when adding its
reading time keeps the running total within the budget. -/
def suggest_reading_session (queue : List Article) (stats : Statistics) (now : Nat)
    (available_minutes : Int) : List Article :=
  let articles := prioritize_queue queue stats now 20
  (articles.foldl (fun (acc : List Article × Int) a =>
      if acc.2 + a.readingTime ≤ available_minutes then (acc.1 ++ [a], acc.2 + a.readingTime)
      else acc) ([], 0)).1

/-- The body of the inner loop of `Scheduler.get_delivery_schedule`: build
the candidate for one day/hour pair and keep it when strictly after the
current moment. -/
def schedule_entry (now day hour : Nat) : Option ScheduleEntry :=
  let delivery_time := replaceHour (now + day * 86400) hour
  if now < delivery_time then
    some { deliveryTime := delivery_time, hour := hour
           dayOfWeek := weekdayOf delivery_time
           recommendedItems := DEFAULT_MAX_ITEMS_PER_DELIVERY }
  else none

/-- The inner loop of `Scheduler.get_delivery_schedule`: one candidate per
hour among the first two preferred hours (`preferred_hours[:2]`). -/
def schedule_day (ph : List Nat) (now day : Nat) : List ScheduleEntry :=
  (ph.take 2).filterMap (schedule_entry now day)

/-- The method `Scheduler.get_delivery_schedule`: for each of the next
`days_ahead` days, the kept candidates of that day, concatenated
(`datetime.now()` is modelled as the single instant `now`). -/
def get_delivery_schedule (activity : List Event) (now : Nat) (days_ahead : Nat) :
    List ScheduleEntry :=
  let preferred_hours := (analyze_reading_patterns activity).preferredHours
  ((List.range days_ahead).map (fun day => schedule_day preferred_hours now day)).flatten

/-! Spec-side definitions, written from the claims' own words, to be compared
with the code-side definitions above. -/

/-- Claim C1's recency factor: max(0, 10 - days_since_saved), with an
unparseable save timestamp contributing 0. -/
def claimRecencyFactor (a : Article) (now : Nat) : Int :=
  match a.savedAt with
  | some t => max 0 (10 - Int.fdiv ((now : Int) - (t : Int)) 86400)
  | none => 0

/-- Claim C1's reading-time factor: +5 up to 3 minutes, +3 for 4 to 5
minutes, -2 from 15 minutes up, otherwise 0. -/
def claimReadingTimeFactor (rt : Int) : Int :=
  if rt ≤ 3 then 5
  else if 4 ≤ rt ∧ rt ≤ 5 then 3
  else if 15 ≤ rt then -2
  else 0

/-- Claim C1's category factor as the claim words it: +5 whenever the
article's category equals the globally most frequent category. -/
def claimCategoryFactor (a : Article) (stats : Statistics) : Int :=
  match stats.topCategory with
  | some c => if a.category = some c then 5 else 0
  | none => 0

/-- The category factor the code implements: the globally most frequent
category must additionally be non-empty (Python truthiness) to score. -/
def amendedCategoryFactor (a : Article) (stats : Statistics) : Int :=
  match stats.topCategory with
  | some c => if c ≠ "" ∧ a.category = some c then 5 else 0
  | none => 0

/-- Claim C1's author factor: +2 for a non-empty author field. -/
def claimAuthorFactor (a : Article) : Int :=
  if truthyOptStr a.author then 2 else 0

/-- Claim C1's description factor: +2 for a description longer than 100
characters. -/
def claimDescriptionFactor (a : Article) : Int :=
  if 100 < (a.description.getD "").length then 2 else 0

/-- The sum of the five factors exactly as claim C1 states them. -/
def claimScoreSum (a : Article) (stats : Statistics) (now : Nat) : Int :=
  claimRecencyFactor a now + claimReadingTimeFactor a.readingTime
    + claimCategoryFactor a stats + claimAuthorFactor a + claimDescriptionFactor a

/-- The sum of the five factors with the category factor amended to carry the
code's non-empty guard. -/
def amendedScoreSum (a : Article) (stats : Statistics) (now : Nat) : Int :=
  claimRecencyFactor a now + claimReadingTimeFactor a.readingTime
    + amendedCategoryFactor a stats + claimAuthorFactor a + claimDescriptionFactor a

/-- The selection rule claim C4 describes: walk the list in order with a
running total, include an article exactly when adding it keeps the total
within the budget, and keep scanning after a skip. -/
def greedyFit (budget : Int) : List Article → Int → List Article
  | [], _ => []
  | a :: rest, used =>
    if used + a.readingTime ≤ budget then a :: greedyFit budget rest (used + a.readingTime)
    else greedyFit budget rest used

/-- Total reading time of a list of articles. -/
def sumReadingTime (l : List Article) : Int := (l.map (·.readingTime)).sum

/-! Concrete inputs used by counterexamples, demonstrations and witnesses. -/

/-- An event log with two reads at hour 21 and one at hour 9, so that the
most frequent hour (21) is not the smallest preferred hour. -/
def ex3Log : List Event :=
  [⟨1, "read", some 162000⟩, ⟨2, "read", some 75600⟩, ⟨3, "read", some 32400⟩]

/-- An instant at 22:00 on the epoch day, past every hour of `ex3Log`. -/
def ex3Now : Nat := 79200

/-- An event log whose only read is at hour 9, leaving a single preferred
hour. -/
def ex7Log : List Event := [⟨1, "read", some 32400⟩]

/-- An article whose category is the empty string. -/
def ex1Article : Article :=
  { id := 1, url := "u", title := "t", content := "c", author := none
    publishedDate := none, description := none, readingTime := 6, domain := "d"
    fetchedAt := "f", savedAt := none, status := "unread", category := some "" }

/-- Statistics whose most frequent category is the empty string. -/
def ex1Stats : Statistics :=
  { totalArticles := 1, unread := 1, readCount := 0, totalReadingTime := 6
    readReadingTime := 0, topCategory := some "" }

/-- An article that scores -2: unparseable save timestamp and a 15-minute
reading time. -/
def ex1NegArticle : Article :=
  { id := 2, url := "n", title := "t", content := "c", author := none
    publishedDate := none, description := none, readingTime := 15, domain := "d"
    fetchedAt := "f", savedAt := none, status := "unread", category := none }

/-- An article saved at the epoch, whose recency factor decays with the call
time. -/
def ex2Article : Article :=
  { id := 1, url := "https://example.com/a", title := "a", content := "c"
    author := none, publishedDate := none, description := none, readingTime := 6
    domain := "example.com", fetchedAt := "f", savedAt := some 0
    status := "unread", category := none }

/-- An empty store. -/
def ex2Store : StoreState := { articles := [], events := [], nextId := 1 }

/-- A store with the same articles table as `ex2Store` (hence the same
statistics) but a different event log and AUTOINCREMENT counter. -/
def ex2StoreB : StoreState := { articles := [], events := [⟨1, "read", none⟩], nextId := 5 }

/-- A high-priority long article: recency 10 and a -2 reading-time penalty
give score 8 at time 0. -/
def demoLong : Article :=
  { id := 1, url := "l", title := "long", content := "c", author := none
    publishedDate := none, description := none, readingTime := 25, domain := "d"
    fetchedAt := "f", savedAt := some 0, status := "unread", category := none }

/-- A lower-priority short article: score 3 at time 0. -/
def demoShort : Article :=
  { id := 2, url := "s", title := "short", content := "c", author := none
    publishedDate := none, description := none, readingTime := 5, domain := "d"
    fetchedAt := "f", savedAt := none, status := "unread", category := none }

/-- Statistics for the demonstration queue. -/
def demoStats : Statistics :=
  { totalArticles := 2, unread := 2, readCount := 0, totalReadingTime := 30
    readReadingTime := 0, topCategory := none }

end ReadLater

namespace ReadLater

/-! Helper lemmas. -/

/-- Membership in the first-appearance fold comes from the accumulator or
from the traversed list. -/
lemma mem_foldl_keys {α : Type} [DecidableEq α] :
    ∀ (xs acc : List α) (x : α),
      x ∈ xs.foldl (fun ks y => if y ∈ ks then ks else ks ++ [y]) acc →
      x ∈ acc ∨ x ∈ xs := by
  intro xs
  induction xs with
  | nil => intro acc x h; exact Or.inl h
  | cons y ys ih =>
    intro acc x h
    rw [List.foldl_cons] at h
    rcases ih _ x h with hacc | hys
    · by_cases hy : y ∈ acc
      · rw [if_pos hy] at hacc; exact Or.inl hacc
      · rw [if_neg hy] at hacc
        rcases List.mem_append.1 hacc with h1 | h2
        · exact Or.inl h1
        · simp only [List.mem_singleton] at h2
          subst h2
          exact Or.inr (List.mem_cons_self x ys)
    · exact Or.inr (List.mem_cons_of_mem y hys)

/-- Elements of `pyCounterKeys xs` are elements of `xs`. -/
lemma mem_pyCounterKeys {α : Type} [DecidableEq α] {x : α} {xs : List α}
    (h : x ∈ pyCounterKeys xs) : x ∈ xs := by
  rcases mem_foldl_keys xs [] x h with h0 | h1
  · cases h0
  · exact h1

/-- Elements of `pyMostCommon k xs` are elements of `xs`. -/
lemma mem_pyMostCommon {α : Type} [DecidableEq α] {x : α} {k : Nat} {xs : List α}
    (h : x ∈ pyMostCommon k xs) : x ∈ xs := by
  have h1 : x ∈ List.insertionSort (fun a b => xs.count b ≤ xs.count a)
      (pyCounterKeys xs) := List.take_subset _ _ h
  have h2 : x ∈ pyCounterKeys xs :=
    (List.perm_insertionSort (fun a b => xs.count b ≤ xs.count a)
      (pyCounterKeys xs)).mem_iff.1 h1
  exact mem_pyCounterKeys h2

/-- The hour of an instant is the seconds-into-day quotient by 3600. -/
lemma hourOf_eq_mod (t : Nat) : hourOf t = t % 86400 / 3600 := by
  unfold hourOf
  rw [show (86400 : Nat) = 3600 * 24 from rfl, Nat.mod_mul_right_div_self]

/-- Every preferred hour produced by the pattern analysis is a valid hour. -/
lemma preferredHours_lt_24 (activity : List Event) :
    ∀ h ∈ (analyze_reading_patterns activity).preferredHours, h < 24 := by
  intro h hm
  have hdef : ∀ x ∈ DEFAULT_DELIVERY_HOURS, x < 24 := by decide
  simp only [analyze_reading_patterns] at hm
  split at hm
  · exact hdef h hm
  · split at hm
    · exact hdef h hm
    · simp only at hm
      split at hm
      · exact hdef h hm
      · have h1 := mem_pyMostCommon hm
        rw [List.mem_map] at h1
        obtain ⟨t, _, rfl⟩ := h1
        exact Nat.mod_lt _ (by norm_num)

/-- The accumulating fold of `suggest_reading_session` computes `greedyFit`. -/
lemma foldl_greedyFit (M : Int) :
    ∀ (arts sel : List Article) (used : Int),
      (arts.foldl (fun (acc : List Article × Int) a =>
          if acc.2 + a.readingTime ≤ M then (acc.1 ++ [a], acc.2 + a.readingTime)
          else acc) (sel, used)).1
        = sel ++ greedyFit M arts used := by
  intro arts
  induction arts with
  | nil => intro sel used; simp [greedyFit]
  | cons a rest ih =>
    intro sel used
    by_cases hc : used + a.readingTime ≤ M
    · simp only [List.foldl_cons, greedyFit, if_pos hc]
      rw [ih]
      simp
    · simp only [List.foldl_cons, greedyFit, if_neg hc]
      exact ih sel used

/-- The running total of `greedyFit` never exceeds the budget. -/
lemma greedyFit_sum (M : Int) :
    ∀ (arts : List Article) (used : Int), used ≤ M →
      used + sumReadingTime (greedyFit M arts used) ≤ M := by
  intro arts
  induction arts with
  | nil => intro used h; simpa [greedyFit, sumReadingTime] using h
  | cons a rest ih =>
    intro used h
    by_cases hc : used + a.readingTime ≤ M
    · have := ih (used + a.readingTime) hc
      simp only [greedyFit, if_pos hc, sumReadingTime, List.map_cons, List.sum_cons]
      simp only [sumReadingTime] at this
      omega
    · simpa [greedyFit, if_neg hc] using ih used h

/-- Summing a function over `List.range d` when it vanishes everywhere except
at one index below `d`. -/
lemma sum_map_range_single (g : Nat → Nat) :
    ∀ (d day : Nat), day < d → (∀ i, i < d → i ≠ day → g i = 0) →
      ((List.range d).map g).sum = g day := by
  intro d
  induction d with
  | zero => intro day hd; omega
  | succ d ih =>
    intro day hd hz
    rw [List.range_succ, List.map_append, List.sum_append]
    by_cases hc : day = d
    · subst hc
      have hzero : ((List.range day).map g).sum = 0 := by
        apply List.sum_eq_zero
        intro x hx
        rw [List.mem_map] at hx
        obtain ⟨i, hi, rfl⟩ := hx
        rw [List.mem_range] at hi
        exact hz i (Nat.lt_succ_of_lt hi) (Nat.ne_of_lt hi)
      simp [hzero]
    · have hday : day < d := by omega
      rw [ih day hday (fun i hi hne => hz i (Nat.lt_succ_of_lt hi) hne)]
      have : g d = 0 := hz d (Nat.lt_succ_self d) (fun he => hc he.symm)
      simp [this]

end ReadLater

namespace ReadLater

/-! Lemmas about the delivery schedule. -/

/-- A kept schedule candidate lies strictly after `now` and on calendar day
`day` counted from today. -/
lemma schedule_entry_some {now day hour : Nat} {e : ScheduleEntry} (h24 : hour < 24)
    (h : schedule_entry now day hour = some e) :
    now < e.deliveryTime ∧ e.deliveryTime / 86400 = now / 86400 + day := by
  simp only [schedule_entry] at h
  split at h
  · rename_i hlt
    cases h
    refine ⟨hlt, ?_⟩
    show replaceHour (now + day * 86400) hour / 86400 = now / 86400 + day
    unfold replaceHour dayStart
    have e1 : (now + day * 86400) / 86400 = now / 86400 + day :=
      Nat.add_mul_div_right now day (by norm_num)
    rw [e1]
    omega
  · cases h

/-- From the first future day on, every candidate is kept. -/
lemma schedule_entry_pos {now hour : Nat} (day : Nat) (h1 : 1 ≤ day) :
    schedule_entry now day hour =
      some { deliveryTime := replaceHour (now + day * 86400) hour, hour := hour
             dayOfWeek := weekdayOf (replaceHour (now + day * 86400) hour)
             recommendedItems := DEFAULT_MAX_ITEMS_PER_DELIVERY } := by
  have hguard : now < replaceHour (now + day * 86400) hour := by
    unfold replaceHour dayStart
    have e1 : (now + day * 86400) / 86400 = now / 86400 + day :=
      Nat.add_mul_div_right now day (by norm_num)
    rw [e1]
    omega
  simp only [schedule_entry]
  rw [if_pos hguard]

/-- From the first future day on, a day contributes exactly
`min 2 (length of the preferred hours)` entries. -/
lemma schedule_day_length_pos (ph : List Nat) (now day : Nat) (h1 : 1 ≤ day) :
    (schedule_day ph now day).length = min 2 ph.length := by
  unfold schedule_day
  rw [List.filterMap_congr (g := fun hour =>
      some { deliveryTime := replaceHour (now + day * 86400) hour, hour := hour
             dayOfWeek := weekdayOf (replaceHour (now + day * 86400) hour)
             recommendedItems := DEFAULT_MAX_ITEMS_PER_DELIVERY })
    (fun hour _ => schedule_entry_pos day h1)]
  have hmap : List.filterMap (fun hour =>
      some { deliveryTime := replaceHour (now + day * 86400) hour, hour := hour
             dayOfWeek := weekdayOf (replaceHour (now + day * 86400) hour)
             recommendedItems := DEFAULT_MAX_ITEMS_PER_DELIVERY }) (ph.take 2)
      = List.map (fun hour =>
          ({ deliveryTime := replaceHour (now + day * 86400) hour, hour := hour
             dayOfWeek := weekdayOf (replaceHour (now + day * 86400) hour)
             recommendedItems := DEFAULT_MAX_ITEMS_PER_DELIVERY } : ScheduleEntry)) (ph.take 2) :=
    congrFun (List.filterMap_eq_map _) _
  rw [hmap, List.length_map, List.length_take]

/-- The accumulated score is the plain sum of the five code factors. -/
lemma calculate_priority_score_eq_sum (a : Article) (stats : Statistics) (now : Nat) :
    calculate_priority_score a stats now =
      (match a.savedAt with
        | some t => max 0 (10 - Int.fdiv ((now : Int) - (t : Int)) 86400)
        | none => 0)
      + (if a.readingTime ≤ 3 then (5 : Int) else if a.readingTime ≤ 5 then 3
         else if 15 ≤ a.readingTime then -2 else 0)
      + (if truthyOptStr stats.topCategory && (a.category == stats.topCategory) then (5 : Int)
         else 0)
      + (if truthyOptStr a.author then (2 : Int) else 0)
      + (if 100 < (a.description.getD "").length then (2 : Int) else 0) := by
  unfold calculate_priority_score
  cases a.savedAt <;> split_ifs <;> ring

/-- The code's elif chain for the reading-time factor agrees with the
claim's case description. -/
lemma readingTimeFactor_eq (rt : Int) :
    (if rt ≤ 3 then (5 : Int) else if rt ≤ 5 then 3 else if 15 ≤ rt then -2 else 0)
      = claimReadingTimeFactor rt := by
  unfold claimReadingTimeFactor
  split_ifs <;> omega

/-- The code's truthiness-guarded category bonus agrees with the amended
category factor. -/
lemma categoryFactor_eq (a : Article) (stats : Statistics) :
    (if truthyOptStr stats.topCategory && (a.category == stats.topCategory) then (5 : Int)
     else 0) = amendedCategoryFactor a stats := by
  unfold amendedCategoryFactor
  cases hst : stats.topCategory with
  | none => simp [truthyOptStr]
  | some c =>
    by_cases hc : c = ""
    · subst hc; simp [truthyOptStr]
    · by_cases hca : a.category = some c
      · simp [truthyOptStr, hc, hca]
      · simp [truthyOptStr, hc, hca]

/-! Theorems for the claims. -/

/-- C1, counterexample: the claim's five-factor sum disagrees with the code
when the globally most frequent category is the empty string.  The article
`ex1Article` has category `""` equal to the statistics' top category, yet the
code scores it 0 (the Python truthiness guard rejects the empty string)
while the claimed factor sum gives it the +5 category bonus. -/
theorem priority_score_counterexample :
    calculate_priority_score ex1Article ex1Stats 0 = 0 ∧
    claimScoreSum ex1Article ex1Stats 0 = 5 := by decide

/-- C1, amended: the priority score is the sum of the five independently
computed factors of the claim, with the category factor amended to require a
non-empty most-frequent category; no clamping is applied and negative totals
occur (`ex1NegArticle` scores -2). -/
theorem priority_score_is_factor_sum :
    (∀ (a : Article) (stats : Statistics) (now : Nat),
      calculate_priority_score a stats now = amendedScoreSum a stats now) ∧
    calculate_priority_score ex1NegArticle ex1Stats 0 = -2 := by
  refine ⟨?_, by decide⟩
  intro a stats now
  rw [calculate_priority_score_eq_sum, readingTimeFactor_eq, categoryFactor_eq]
  rfl

/-- C2, counterexample: the scorer is not a function of the article and the
global statistics alone.  Both runs below use the identical store (hence
identical statistics) and the identical article, but different call times:
twenty days later the recency factor has decayed from 10 to 0. -/
theorem priority_score_depends_on_time :
    (calculate_priority_score_run ex2Article ex2Store 0).1
      ≠ (calculate_priority_score_run ex2Article ex2Store 1728000).1 := by decide

/-- C2, amended: the scorer is a pure function of the article, the global
statistics and the current time: any two stores with equal statistics yield
the same score, the store state is returned unchanged, and the only store
operation performed is the single statistics read. -/
theorem priority_score_run_pure (a : Article) (s s2 : StoreState) (now : Nat)
    (h : get_statistics s = get_statistics s2) :
    (calculate_priority_score_run a s now).1 = (calculate_priority_score_run a s2 now).1 ∧
    (calculate_priority_score_run a s now).2.1 = s ∧
    (calculate_priority_score_run a s now).2.2 = [StoreOp.getStatistics] := by
  refine ⟨?_, rfl, rfl⟩
  simp only [calculate_priority_score_run, get_statistics_op]
  rw [h]

/-- C2, witness: two concrete stores with equal statistics but different
event logs and AUTOINCREMENT counters receive the same score. -/
theorem priority_score_run_pure_witness :
    (calculate_priority_score_run ex2Article ex2Store 0).1
      = (calculate_priority_score_run ex2Article ex2StoreB 0).1 :=
  (priority_score_run_pure ex2Article ex2Store ex2StoreB 0 (by decide)).1

/-- C3, counterexample: with preferred hours [21, 9] (hour 21 is the most
frequent) and the current hour 22, every preferred hour has passed, yet the
code schedules the next day at 21 — `preferred_hours[0]` — and not at the
smallest preferred hour 9, refuting the claim at this state. -/
theorem next_delivery_not_smallest :
    (∀ h ∈ (analyze_reading_patterns ex3Log).preferredHours, h ≤ hourOf ex3Now) ∧
    9 ∈ (analyze_reading_patterns ex3Log).preferredHours ∧
    (∀ h ∈ (analyze_reading_patterns ex3Log).preferredHours, 9 ≤ h) ∧
    get_next_delivery_time ex3Log ex3Now ≠ replaceHour (ex3Now + 86400) 9 := by decide

/-- C3, amended: when no preferred hour is strictly greater than the current
hour, the delivery is placed on the next calendar day at the FIRST listed
preferred hour (the most frequent one, `preferred_hours[0]`), which is the
smallest only when the list is sorted, as the default list is. -/
theorem next_delivery_fallback (activity : List Event) (now : Nat)
    (hall : ∀ h ∈ (analyze_reading_patterns activity).preferredHours, h ≤ hourOf now) :
    get_next_delivery_time activity now
      = replaceHour (now + 86400)
          ((analyze_reading_patterns activity).preferredHours.headD 0) ∧
    get_next_delivery_time activity now / 86400 = now / 86400 + 1 := by
  have hfind : (List.insertionSort (fun a b : Nat => a ≤ b)
      ((analyze_reading_patterns activity).preferredHours)).find?
      (fun h => decide (hourOf now < h)) = none := by
    rw [List.find?_eq_none]
    intro x hx
    have hx2 : x ∈ (analyze_reading_patterns activity).preferredHours :=
      (List.perm_insertionSort _ _).mem_iff.1 hx
    simp only [decide_eq_true_eq, Nat.not_lt]
    exact hall x hx2
  have hbranch : get_next_delivery_time activity now
      = replaceHour (now + 86400)
          ((analyze_reading_patterns activity).preferredHours.headD 0) := by
    simp only [get_next_delivery_time, hfind]
  refine ⟨hbranch, ?_⟩
  rw [hbranch]
  have hlt : (analyze_reading_patterns activity).preferredHours.headD 0 < 24 := by
    cases hph : (analyze_reading_patterns activity).preferredHours with
    | nil => simp
    | cons h t =>
      have hm := preferredHours_lt_24 activity h (by rw [hph]; exact List.mem_cons_self h t)
      simpa using hm
  unfold replaceHour dayStart
  have e1 : (now + 86400) / 86400 = now / 86400 + 1 :=
    Nat.add_div_right now (by norm_num)
  rw [e1]
  omega

/-- C3, witness: the amended fallback applied to the concrete state of the
counterexample. -/
theorem next_delivery_fallback_witness :
    get_next_delivery_time ex3Log ex3Now
      = replaceHour (ex3Now + 86400)
          ((analyze_reading_patterns ex3Log).preferredHours.headD 0) :=
  (next_delivery_fallback ex3Log ex3Now (by decide)).1

/-- C4: the suggested session equals the claim's greedy skip-and-continue
selection over the top-20 prioritized queue, its total reading time respects
the budget, and the concrete demonstration shows a skipped higher-priority
article followed by a selected lower-priority one. -/
theorem suggest_session_spec (queue : List Article) (stats : Statistics) (now : Nat)
    (M : Int) (hM : 0 ≤ M) :
    suggest_reading_session queue stats now M
      = greedyFit M (prioritize_queue queue stats now 20) 0 ∧
    sumReadingTime (suggest_reading_session queue stats now M) ≤ M ∧
    prioritize_queue [demoShort, demoLong] demoStats 0 20 = [demoLong, demoShort] ∧
    suggest_reading_session [demoShort, demoLong] demoStats 0 10 = [demoShort] := by
  have heq : suggest_reading_session queue stats now M
      = greedyFit M (prioritize_queue queue stats now 20) 0 := by
    unfold suggest_reading_session
    rw [foldl_greedyFit]
    simp
  refine ⟨heq, ?_, by decide, by decide⟩
  rw [heq]
  have hsum := greedyFit_sum M (prioritize_queue queue stats now 20) 0 hM
  omega

/-- C4, witness: the budget bound at the concrete demonstration queue. -/
theorem suggest_session_spec_witness :
    sumReadingTime (suggest_reading_session [demoShort, demoLong] demoStats 0 10) ≤ 10 :=
  (suggest_session_spec [demoShort, demoLong] demoStats 0 10 (by decide)).2.1

/-- C5: when the activity log contains no read events (in particular when it
is empty), the analysis returns exactly the documented default pattern. -/
theorem analyze_no_reads_default (activity : List Event)
    (h : activity.filter (fun a => a.eventType == "read") = []) :
    analyze_reading_patterns activity =
      { preferredHours := [9, 12, 18, 21], preferredDays := [0, 1, 2, 3, 4, 5, 6]
        readingTimes := ["morning", "evening"], totalReads := 0, hasData := false } := by
  by_cases hA : activity = []
  · subst hA; decide
  · simp only [analyze_reading_patterns, if_neg hA, h]
    decide

/-- C5, witness: a log holding only a save event yields the default. -/
theorem analyze_no_reads_default_witness :
    analyze_reading_patterns [⟨1, "saved", some 0⟩] =
      { preferredHours := [9, 12, 18, 21], preferredDays := [0, 1, 2, 3, 4, 5, 6]
        readingTimes := ["morning", "evening"], totalReads := 0, hasData := false } :=
  analyze_no_reads_default [⟨1, "saved", some 0⟩] (by decide)

/-- C6: the next delivery time is always strictly after the call instant and
has minute and second zero (it is a whole multiple of 3600 seconds). -/
theorem next_delivery_future (activity : List Event) (now : Nat) :
    now < get_next_delivery_time activity now ∧
    get_next_delivery_time activity now % 3600 = 0 := by
  simp only [get_next_delivery_time]
  split
  · rename_i h heq
    have hfs := List.find?_some heq
    simp only [decide_eq_true_eq] at hfs
    have hh : hourOf now < h := hfs
    have h1 : now % 86400 / 3600 < h := by
      rw [← hourOf_eq_mod]; exact hh
    have h2 : now % 86400 < h * 3600 :=
      (Nat.div_lt_iff_lt_mul (by norm_num)).1 h1
    unfold replaceHour dayStart
    constructor <;> omega
  · unfold replaceHour dayStart
    constructor <;> omega

/-- C7, counterexample: with a single preferred hour (all reads at hour 9),
the schedule over two days starting at hour 10 holds one entry in total, and
the fully-future day 1 contributes one entry, not the claimed two. -/
theorem delivery_schedule_counterexample :
    (get_delivery_schedule ex7Log 36000 2).length = 1 ∧
    ((get_delivery_schedule ex7Log 36000 2).filter
        (fun e => decide (e.deliveryTime / 86400 = 36000 / 86400 + 1))).length ≠ 2 := by decide

/-- C7, amended: every schedule entry is strictly after the current moment,
and each future day contributes exactly `min 2 (number of preferred hours)`
entries — exactly 2 whenever at least two preferred hours exist. -/
theorem delivery_schedule_spec (activity : List Event) (now : Nat) (d : Nat) :
    (∀ e ∈ get_delivery_schedule activity now d, now < e.deliveryTime) ∧
    (∀ day, 1 ≤ day → day < d →
      ((get_delivery_schedule activity now d).filter
          (fun e => decide (e.deliveryTime / 86400 = now / 86400 + day))).length
        = min 2 (analyze_reading_patterns activity).preferredHours.length) := by
  have hp24 : ∀ h ∈ (analyze_reading_patterns activity).preferredHours, h < 24 :=
    preferredHours_lt_24 activity
  constructor
  · intro e he
    simp only [get_delivery_schedule, List.mem_flatten, List.mem_map] at he
    obtain ⟨l, ⟨day, _, rfl⟩, hel⟩ := he
    simp only [schedule_day, List.mem_filterMap] at hel
    obtain ⟨hour, hh, hsome⟩ := hel
    exact (schedule_entry_some (hp24 hour (List.take_subset _ _ hh)) hsome).1
  · intro day h1 hd
    have hz : ∀ i, i < d → i ≠ day →
        ((schedule_day (analyze_reading_patterns activity).preferredHours now i).filter
            (fun e => decide (e.deliveryTime / 86400 = now / 86400 + day))).length = 0 := by
      intro i _ hne
      rw [List.length_eq_zero, List.filter_eq_nil_iff]
      intro e he
      simp only [schedule_day, List.mem_filterMap] at he
      obtain ⟨hour, hh, hsome⟩ := he
      have hdiv := (schedule_entry_some (hp24 hour (List.take_subset _ _ hh)) hsome).2
      simp only [decide_eq_true_eq]
      omega
    have hcalc : (get_delivery_schedule activity now d).filter
          (fun e => decide (e.deliveryTime / 86400 = now / 86400 + day))
        = ((List.range d).map (fun i =>
            (schedule_day (analyze_reading_patterns activity).preferredHours now i).filter
              (fun e => decide (e.deliveryTime / 86400 = now / 86400 + day)))).flatten := by
      simp only [get_delivery_schedule]
      rw [List.filter_flatten, List.map_map]
      rfl
    rw [hcalc, List.length_flatten, List.map_map]
    have hall : (schedule_day (analyze_reading_patterns activity).preferredHours now day).filter
          (fun e => decide (e.deliveryTime / 86400 = now / 86400 + day))
        = schedule_day (analyze_reading_patterns activity).preferredHours now day := by
      rw [List.filter_eq_self]
      intro e he
      simp only [schedule_day, List.mem_filterMap] at he
      obtain ⟨hour, hh, hsome⟩ := he
      have hdiv := (schedule_entry_some (hp24 hour (List.take_subset _ _ hh)) hsome).2
      simpa using hdiv
    have hsum := sum_map_range_single
      (fun i => ((schedule_day (analyze_reading_patterns activity).preferredHours now i).filter
          (fun e => decide (e.deliveryTime / 86400 = now / 86400 + day))).length)
      d day hd hz
    refine hsum.trans ?_
    show ((schedule_day (analyze_reading_patterns activity).preferredHours now day).filter
        (fun e => decide (e.deliveryTime / 86400 = now / 86400 + day))).length
      = min 2 (analyze_reading_patterns activity).preferredHours.length
    rw [hall]
    exact schedule_day_length_pos _ _ _ h1

/-- C7, witness: on the counterexample state, the amended count for the
future day 1 evaluates to min 2 1 = 1. -/
theorem delivery_schedule_spec_witness :
    ((get_delivery_schedule ex7Log 36000 2).filter
        (fun e => decide (e.deliveryTime / 86400 = 36000 / 86400 + 1))).length
      = min 2 (analyze_reading_patterns ex7Log).preferredHours.length :=
  (delivery_schedule_spec ex7Log 36000 2).2 1 (by decide) (by decide)

/-- C8: the four buckets are mutually exclusive and exhaustive on hours 0-23
with exactly the claimed ranges, the night test is the wrap-around condition
hour at least 23 or at most 5, and read events at hours 23 and 2 are both
counted in the night bucket. -/
theorem bucket_assignment :
    (∀ h : Fin 24,
      (timeCategories.filter (fun c => catMatch c h.val)).map (fun c => c.1) =
        (if 6 ≤ h.val ∧ h.val ≤ 11 then ["morning"]
         else if 12 ≤ h.val ∧ h.val ≤ 17 then ["afternoon"]
         else if 18 ≤ h.val ∧ h.val ≤ 22 then ["evening"]
         else ["night"])) ∧
    (∀ h : Fin 24, catMatch ("night", 23, 5) h.val = decide (23 ≤ h.val ∨ h.val ≤ 5)) ∧
    category_counts [23, 2] = [("night", 2)] ∧
    categorize_reading_times [23, 2] = ["night"] := by decide

/-- C9: saving the same article data twice returns the same identifier both
times and the second save leaves the entire store state unchanged. -/
theorem save_article_idempotent (s : StoreState) (d : ArticleData) (n1 n2 : Nat) :
    (save_article (save_article s d n1).2 d n2).1 = (save_article s d n1).1 ∧
    (save_article (save_article s d n1).2 d n2).2 = (save_article s d n1).2 := by
  cases hf : s.articles.find? (fun a => a.url == d.url) with
  | some e =>
    simp [save_article, hf]
  | none =>
    simp only [save_article, hf]
    rw [List.find?_append, hf]
    simp [List.find?]

/-- C10: a log whose read events all carry unparseable timestamps does not
produce the documented default: the preferred hours fall back to the default
list, but preferred days and the bucket ranking come back empty while
`has_data` is true and `total_reads` counts the unparseable events. -/
theorem analyze_all_unparseable (activity : List Event)
    (h1 : activity.filter (fun a => a.eventType == "read") ≠ [])
    (h2 : ∀ e ∈ activity.filter (fun a => a.eventType == "read"), e.timestamp = none) :
    analyze_reading_patterns activity =
      { preferredHours := [9, 12, 18, 21], preferredDays := [], readingTimes := []
        totalReads := (activity.filter (fun a => a.eventType == "read")).length
        hasData := true } ∧
    analyze_reading_patterns activity ≠ get_default_patterns := by
  have hA : activity ≠ [] := by
    intro hx; subst hx; simp at h1
  have hparsed : (activity.filter (fun a => a.eventType == "read")).filterMap
      (fun x => x.timestamp) = [] := List.filterMap_eq_nil_iff.2 h2
  have hmain : analyze_reading_patterns activity =
      { preferredHours := [9, 12, 18, 21], preferredDays := [], readingTimes := []
        totalReads := (activity.filter (fun a => a.eventType == "read")).length
        hasData := true } := by
    simp only [analyze_reading_patterns, if_neg hA, if_neg h1, hparsed]
    simp [pyMostCommon, pyCounterKeys, categorize_reading_times, category_counts,
      DEFAULT_DELIVERY_HOURS, List.insertionSort]
  refine ⟨hmain, ?_⟩
  rw [hmain]
  intro heq
  have hflag := congrArg ReadingPatterns.hasData heq
  simp [get_default_patterns] at hflag

/-- C10, witness: a log with a single unparseable read event. -/
theorem analyze_all_unparseable_witness :
    analyze_reading_patterns [⟨1, "read", none⟩] =
      { preferredHours := [9, 12, 18, 21], preferredDays := [], readingTimes := []
        totalReads := 1, hasData := true } :=
  (analyze_all_unparseable [⟨1, "read", none⟩] (by decide) (by decide)).1

end ReadLater
